import Mathlib

/-!
Verification development for `import_blueprints.py`: a script that imports
Nutanix Calm blueprint JSON files into a Prism Central instance, optionally
rebinding each document to a project and injecting deployment variables into
the EraServerDeployment blueprint.

The script is embedded shallowly: JSON documents become an inductive `JSON`
type (objects are key-value lists in insertion order, as Python dicts
preserve insertion order), Python exceptions become the `PyErr` error type of
`Except`, and each region of `main` / `get_options` becomes a Lean function
named after the role it plays.  `json.dumps` followed by `json.loads` is the
identity on parsed values, so the dump/load round-trips in the script are
modelled as identities; file reads and HTTP responses are parameters
(`Option JSON`, `none` meaning the bytes did not parse as JSON).
-/

set_option maxHeartbeats 1000000

namespace ImportBlueprints

/-- JSON values as produced by Python `json.loads`.  Objects keep their
fields in insertion order; numbers are modelled as integers (no claim
depends on float behaviour). -/
inductive JSON where
  | null
  | bool (b : Bool)
  | num (n : Int)
  | str (s : String)
  | arr (elems : List JSON)
  | obj (fields : List (String × JSON))

/-- Python exceptions that the script can raise. -/
inductive PyErr where
  | exception (msg : String)
  | nameError (v : String)
  | typeError (msg : String)
  | keyError (k : String)
  | indexError
  | jsonDecodeError
  | attributeError (msg : String)

/-- Dictionary lookup on a JSON object body (first matching key). -/
def objGet : List (String × JSON) → String → Option JSON
  | [], _ => none
  | (k, v) :: rest, key => if k = key then some v else objGet rest key

/-- Dictionary item assignment `d[key] = val`: replace in place when the key
exists (keeping its position), append otherwise — Python dict semantics. -/
def objSet : List (String × JSON) → String → JSON → List (String × JSON)
  | [], key, val => [(key, val)]
  | (k, v) :: rest, key, val =>
      if k = key then (key, val) :: rest else (k, v) :: objSet rest key val

/-- Dictionary `d.pop(key)`: remove the key. -/
def objPop : List (String × JSON) → String → List (String × JSON)
  | [], _ => []
  | (k, v) :: rest, key =>
      if k = key then objPop rest key else (k, v) :: objPop rest key

/-- Dictionary membership `key in d`. -/
def objHas : List (String × JSON) → String → Bool
  | [], _ => false
  | (k, _) :: rest, key => if k = key then true else objHas rest key

/-- Lookup in a string-to-string dict (`dict_variables`). -/
def tblGet : List (String × String) → String → Option String
  | [], _ => none
  | (k, v) :: rest, key => if k = key then some v else tblGet rest key

/-- Does `hay` start with `needle`? (helper for Python `in` on strings). -/
def charsStart : List Char → List Char → Bool
  | [], _ => true
  | _ :: _, [] => false
  | n :: ns, h :: hs => n = h && charsStart ns hs

/-- Substring test on character lists. -/
def charsHasSub (needle : List Char) : List Char → Bool
  | [] => needle.isEmpty
  | c :: rest => charsStart needle (c :: rest) || charsHasSub needle rest

/-- Python `needle in hay` for strings: substring containment. -/
def strHasSub (needle hay : String) : Bool :=
  charsHasSub needle.toList hay.toList

/-- ASCII lowercasing of one character (what Python `str.lower` does on the
ASCII variable names this script handles). -/
def pyLowerChar (c : Char) : Char :=
  if 65 ≤ c.toNat ∧ c.toNat ≤ 90 then Char.ofNat (c.toNat + 32) else c

/-- Python `s.lower()` on the ASCII strings this script handles. -/
def pyLower (s : String) : String :=
  String.mk (s.toList.map pyLowerChar)

/-- Python subscript `j[key]` with a string key: dict lookup (`KeyError`
when absent), `TypeError` on every other JSON value. -/
def subscr (j : JSON) (key : String) : Except PyErr JSON :=
  match j with
  | .obj l =>
      match objGet l key with
      | some v => .ok v
      | none => .error (.keyError key)
  | _ => .error (.typeError "value is not subscriptable by a string key")

/-- Python subscript `j[i]` with an integer index: list/string indexing,
`KeyError` on a dict without that int key, `TypeError` otherwise. -/
def subscrIdx (j : JSON) (i : Nat) : Except PyErr JSON :=
  match j with
  | .arr l =>
      match l.get? i with
      | some v => .ok v
      | none => .error .indexError
  | .str s =>
      match s.toList.get? i with
      | some c => .ok (.str (String.singleton c))
      | none => .error .indexError
  | .obj _ => .error (.keyError (toString i))
  | _ => .error (.typeError "value is not subscriptable by an integer")

/-- Python item assignment `j[key] = v`: only dicts support it here. -/
def setItem (j : JSON) (key : String) (v : JSON) : Except PyErr JSON :=
  match j with
  | .obj l => .ok (.obj (objSet l key v))
  | _ => .error (.typeError "value does not support item assignment")

/-- Python item assignment `j[i] = v` at an integer index of a list. -/
def setIdx (j : JSON) (i : Nat) (v : JSON) : Except PyErr JSON :=
  match j with
  | .arr l =>
      if i < l.length then .ok (.arr (l.set i v))
      else .error .indexError
  | _ => .error (.typeError "value does not support integer item assignment")

/-- Python `for x in j`: lists yield elements, dicts yield their keys,
strings yield one-character strings, everything else is not iterable. -/
def iterElems : JSON → Except PyErr (List JSON)
  | .arr l => .ok l
  | .obj l => .ok (l.map fun p => .str p.1)
  | .str s => .ok (s.toList.map fun c => .str (String.singleton c))
  | _ => .error (.typeError "value is not iterable")

/-- Does a JSON array contain the string `key` as an element? (Python
`key in list` is element equality.) -/
def arrHasStr : List JSON → String → Bool
  | [], _ => false
  | .str s :: rest, key => if s = key then true else arrHasStr rest key
  | _ :: rest, key => arrHasStr rest key

/-- Python membership `key in j` for a string `key`: key membership on
dicts, element equality on lists, substring on strings, `TypeError`
otherwise. -/
def memberStr (key : String) (j : JSON) : Except PyErr Bool :=
  match j with
  | .obj l => .ok (objHas l key)
  | .arr l => .ok (arrHasStr l key)
  | .str s => .ok (strHasSub key s)
  | _ => .error (.typeError "argument of this type is not iterable")

/-- Python `j == s` comparing a JSON value against a string: true exactly
for the equal string (no error on other types). -/
def pyEqStr (j : JSON) (s : String) : Bool :=
  match j with
  | .str t => t == s
  | _ => false

/-- The command-line arguments as argparse delivers them (`none` = flag not
given).  `pc_ip` is positional and always present. -/
structure Args where
  pc_ip : String
  username : Option String
  password : Option String
  directory : Option String
  project : Option String
  pe_vip : Option String
  ctr_uuid : Option String
  ctr_name : Option String
  clstr_name : Option String
  era_id : Option String
  network_name : Option String
  network_vlan : Option String

/-- The `if args.x: y = args.x else: y = dflt` pattern of `get_options`.
Python truthiness: an empty string is falsy, so an explicit empty argument
falls back to the default as well. -/
def argValue (arg : Option String) (dflt : String) : String :=
  match arg with
  | some s => if s = "" then dflt else s
  | none => dflt

/-- Lines 81-84 of `get_options`: the target project name, defaulting to
the sentinel string "none". -/
def projectOf (a : Args) : String :=
  argValue a.project "none"

/-- Lines 76-79: the blueprint directory, defaulting to ".". -/
def directoryOf (a : Args) : String :=
  argValue a.directory "."

/-- Lines 86-107 of `get_options`: `dict_variables` starts with every value
set to the sentinel "none" and each supplied flag overwrites its entry
(insertion order of the dict literal on line 86 is preserved). -/
def buildDictVariables (a : Args) : List (String × String) :=
  [("pe_vip", argValue a.pe_vip "none"),
   ("ctr_uuid", argValue a.ctr_uuid "none"),
   ("clstr_name", argValue a.clstr_name "none"),
   ("ctr_name", argValue a.ctr_name "none"),
   ("era_id", argValue a.era_id "none"),
   ("network_name", argValue a.network_name "none"),
   ("network_vlan", argValue a.network_vlan "none")]

/-- The `dict_variables` literal of line 86 before any flag overwrites it. -/
def dictVariablesDefault : List (String × String) :=
  [("pe_vip", "none"), ("ctr_uuid", "none"), ("clstr_name", "none"),
   ("ctr_name", "none"), ("era_id", "none"), ("network_name", "none"),
   ("network_vlan", "none")]

/-- The `if key in d: d.pop(key)` effect on an object body, used to state
what lines 186-194 leave behind. -/
def stripL (l : List (String × JSON)) (key : String) : List (String × JSON) :=
  if objHas l key then objPop l key else l

/-- Is the entry an object whose "name" field is a string whose lower-cased
form is present in the substitution table?  (The condition under which the
`dict_variables[variable_name]` lookup of line 180 cannot raise.) -/
def entryNameInTable (table : List (String × String)) (e : JSON) : Bool :=
  match e with
  | .obj l =>
    match objGet l "name" with
    | some (.str s) => (tblGet table (pyLower s)).isSome
    | _ => false
  | _ => false

/-- The substitution-table value governing an entry: the table value at the
entry's lower-cased "name" field, when that shape is present. -/
def entryTableValue (table : List (String × String)) (e : JSON) : Option String :=
  match e with
  | .obj l =>
    match objGet l "name" with
    | some (.str s) => tblGet table (pyLower s)
    | _ => none
  | _ => none

/-- The project reference object built by lines 170-172:
first `parsed["metadata"]["project_reference"] = \x7b\x7d`, then the two
nested assignments fill in "kind" and "uuid". -/
def exactProjectRef (uuid : String) : JSON :=
  .obj (objSet (objSet [] "kind" (.str "project")) "uuid" (.str uuid))

/-- Lines 168-172 of `main`: attach the resolved project to the document.
`parsed["metadata"]["project_reference"] = \x7b\x7d` requires `metadata` to be
present (else `KeyError`) and a dict (else `TypeError`); the two nested
assignments then mutate the freshly stored dict through the alias, which
the functional model expresses by storing the finished reference. -/
def projectBind (uuid : String) (parsed : JSON) : Except PyErr JSON :=
  match subscr parsed "metadata" with
  | .error e => .error e
  | .ok meta =>
    match setItem meta "project_reference" (.obj []) with
    | .error e => .error e
    | .ok meta1 =>
      match setItem meta1 "project_reference" (exactProjectRef uuid) with
      | .error e => .error e
      | .ok meta2 => setItem parsed "metadata" meta2

/-- Lines 177-181 of `main`: for each entry of the variable list, read
`var_dict["name"]`, lower-case it (`AttributeError` on a non-string), look
it up in `dict_variables` (`KeyError` when the name is absent), and when the
table value is not the sentinel "none" overwrite `var_dict["value"]`. -/
def injectVars (table : List (String × String)) : List JSON → Except PyErr (List JSON)
  | [] => .ok []
  | entry :: rest =>
    match subscr entry "name" with
    | .error e => .error e
    | .ok nameVal =>
      match nameVal with
      | .str s =>
        match tblGet table (pyLower s) with
        | none => .error (.keyError (pyLower s))
        | some v =>
          if v ≠ "none" then
            match setItem entry "value" (.str v) with
            | .error e => .error e
            | .ok entry1 =>
              match injectVars table rest with
              | .error e => .error e
              | .ok rest1 => .ok (entry1 :: rest1)
          else
            match injectVars table rest with
            | .error e => .error e
            | .ok rest1 => .ok (entry :: rest1)
      | _ => .error (.attributeError "this value has no attribute lower")

/-- Lines 174-181 of `main`: when `"EraServerDeployment" in
parsed["metadata"]["name"]`, walk to
`spec.resources.service_definition_list[0].variable_list`, inject the
variables, and (because Python mutates the entries through aliases) write
the updated list back along the same path.  Iterating a non-list value
either raises inside the loop (its elements are strings, and
`var_dict["name"]` on a string is a `TypeError`) or, when it is empty,
leaves the document unchanged. -/
def maybeInject (table : List (String × String)) (parsed : JSON) : Except PyErr JSON :=
  match subscr parsed "metadata" with
  | .error e => .error e
  | .ok meta =>
    match subscr meta "name" with
    | .error e => .error e
    | .ok nameVal =>
      match memberStr "EraServerDeployment" nameVal with
      | .error e => .error e
      | .ok b =>
        if b then
          match subscr parsed "spec" with
          | .error e => .error e
          | .ok spec =>
            match subscr spec "resources" with
            | .error e => .error e
            | .ok res =>
              match subscr res "service_definition_list" with
              | .error e => .error e
              | .ok sdl =>
                match subscrIdx sdl 0 with
                | .error e => .error e
                | .ok sd0 =>
                  match subscr sd0 "variable_list" with
                  | .error e => .error e
                  | .ok varList =>
                    match iterElems varList with
                    | .error e => .error e
                    | .ok entries =>
                      match injectVars table entries with
                      | .error e => .error e
                      | .ok entries1 =>
                        match varList with
                        | .arr _ =>
                          match setItem sd0 "variable_list" (.arr entries1) with
                          | .error e => .error e
                          | .ok sd1 =>
                            match setIdx sdl 0 sd1 with
                            | .error e => .error e
                            | .ok sdl1 =>
                              match setItem res "service_definition_list" sdl1 with
                              | .error e => .error e
                              | .ok res1 =>
                                match setItem spec "resources" res1 with
                                | .error e => .error e
                                | .ok spec1 => setItem parsed "spec" spec1
                        | _ => .ok parsed
        else .ok parsed

/-- Python `j.pop(key)` as used on lines 189/191 (only ever reached when
`key in j` was true). -/
def popItem (j : JSON) (key : String) : Except PyErr JSON :=
  match j with
  | .obj l => .ok (.obj (objPop l key))
  | .arr _ => .error (.typeError "list pop index must be an integer")
  | _ => .error (.attributeError "this value has no attribute pop")

/-- One `if key in pre_process: pre_process.pop(key)` step. -/
def stripKey (key : String) (j : JSON) : Except PyErr JSON :=
  match memberStr key j with
  | .error e => .error e
  | .ok b => if b then popItem j key else .ok j

/-- Lines 186-194 of `main`: drop the export-only top-level keys "status"
and "product_version". -/
def stripExportKeys (j : JSON) : Except PyErr JSON :=
  match stripKey "status" j with
  | .error e => .error e
  | .ok j1 => stripKey "product_version" j1

/-- Lines 196-202 of `main`: `json.loads(raw_json)['spec']['name']`.  At
this point `raw_json` is the output of `json.dumps`, so it always parses
and the `except json.decoder.JSONDecodeError` handler (lines 200-202, the
"Unprocessable JSON file" message) can never fire; a missing `spec` or
`name` key raises an uncaught `KeyError` instead. -/
def checkName (j : JSON) : Except PyErr JSON :=
  match subscr j "spec" with
  | .error e => .error e
  | .ok spec => subscr spec "name"

/-- The per-file transformation, lines 163-194 of `main`.  `raw` is the
parse of the file content (`none` when the bytes are not valid JSON).  When
a project was resolved (lines 168-184) the document is parsed (line 169,
`json.loads` uncaught), project-bound and variable-injected; either way the
export-only keys are then stripped (lines 186-194; the surrounding
`json.dumps` / `json.loads` round-trips are identities). -/
def transformRaw (proj : Option String) (table : List (String × String))
    (raw : Option JSON) : Except PyErr JSON :=
  match proj with
  | some uuid =>
    match raw with
    | none => .error .jsonDecodeError
    | some parsed =>
      match projectBind uuid parsed with
      | .error e => .error e
      | .ok d1 =>
        match maybeInject table d1 with
        | .error e => .error e
        | .ok d2 => stripExportKeys d2
  | none =>
    match raw with
    | none => .error .jsonDecodeError
    | some parsed => stripExportKeys parsed

/-- Lines 142-145 of `main`: the linear scan over `results["entities"]`.
Every entity is inspected (`current_project["status"]["name"] == project`);
each match overwrites `project_found` / `project_uuid`, so the scan never
stops early. -/
def scanProjects (project : String) :
    List JSON → Bool → Option JSON → Except PyErr (Bool × Option JSON)
  | [], found, uuid => .ok (found, uuid)
  | ent :: rest, found, uuid =>
    match subscr ent "status" with
    | .error e => .error e
    | .ok st =>
      match subscr st "name" with
      | .error e => .error e
      | .ok nm =>
        if pyEqStr nm project then
          match subscr ent "metadata" with
          | .error e => .error e
          | .ok md =>
            match subscr md "uuid" with
            | .error e => .error e
            | .ok uu => scanProjects project rest true (some uu)
        else
          scanProjects project rest found uuid

/-- The expression `json_result['message_list'][0]['message']` inside the
`try` of lines 224-227, together with the string concatenation building the
outcome line (`TypeError` when the message is not a string). -/
def messageFromList (bp : String) (resp : JSON) : Except PyErr String :=
  match subscr resp "message_list" with
  | .error e => .error e
  | .ok ml =>
    match subscrIdx ml 0 with
    | .error e => .error e
    | .ok m0 =>
      match subscr m0 "message" with
      | .error e => .error e
      | .ok mv =>
        match mv with
        | .str m => .ok (bp ++ " : " ++ m ++ ".")
        | _ => .error (.typeError "can only concatenate str to str")

/-- Lines 224-227 of `main`: only `KeyError` is caught; the fallback
message concatenates the string prefix with the float `difference`
(`mktime(end_time) - mktime(start_time)`), which is a `TypeError` in
Python 3, so the "Successfully imported" line can never be produced. -/
def interpretResponse (bp : String) (resp : JSON) : Except PyErr String :=
  match messageFromList bp resp with
  | .ok line => .ok line
  | .error (.keyError _) => .error (.typeError "can only concatenate str to str, not float")
  | .error e => .error e

/-- One candidate blueprint file: its path, the parse of its content
(`none` = the bytes are not valid JSON, line 169/187 would raise
`json.decoder.JSONDecodeError`), and the parse of the upload response
(`none` = `client.get_info()` raises `json.decoder.JSONDecodeError`). -/
structure FileInput where
  path : String
  raw : Option JSON
  resp : Option JSON

/-- How a run of `main` ends: reaching the final `print("Finished!")`,
a `sys.exit()` call, or an uncaught exception. -/
inductive RunEnd where
  | finished
  | exited
  | crashed (e : PyErr)

/-- Observable behaviour of one run: lines printed to stdout (in order),
control-plane endpoints actually queried (in order), and how the run
ended. -/
structure RunTrace where
  output : List String
  calls : List String
  ending : RunEnd

/-- Lines 160-230 of `main`: the per-file loop.  For each file: transform
(uncaught errors abort the run), extract `spec.name` (uncaught `KeyError`
aborts), upload (`blueprints/import_json`), and interpret the response;
a response that fails to parse prints the "No processable JSON response"
line and calls `sys.exit()`. -/
def runFiles (proj : Option String) (table : List (String × String)) :
    List FileInput → List String → List String → RunTrace
  | [], out, calls => ⟨out ++ ["\nFinished!\n"], calls, .finished⟩
  | f :: rest, out, calls =>
    match transformRaw proj table f.raw with
    | .error e => ⟨out, calls, .crashed e⟩
    | .ok doc =>
      match checkName doc with
      | .error e => ⟨out, calls, .crashed e⟩
      | .ok _ =>
        match f.resp with
        | none =>
            ⟨out ++ [f.path ++ ": No processable JSON response available."],
             calls ++ ["blueprints/import_json"], .exited⟩
        | some r =>
          match interpretResponse f.path r with
          | .error e => ⟨out, calls ++ ["blueprints/import_json"], .crashed e⟩
          | .ok line =>
              runFiles proj table rest (out ++ [line]) (calls ++ ["blueprints/import_json"])

/-- `main`, lines 111-236, after `get_options` has resolved the globals.
`files` stands for `glob.glob(dir_path + "/*.json")` (the `rstrip("/")`
only shapes that glob pattern); `projResp` is the parse of the
`projects/list` response body.  Faithful control flow:
the credential checks (lines 123-128); the file-count check (line 134)
with the project check nested inside it (lines 138-154); when
`project == "none"` the variable `project_found` was never assigned, so
line 148 (`if project_found:`) raises `UnboundLocalError`; when the
project was found, line 157 adds `len(blueprint_list)` (an int) to a
string, raising `TypeError`, so the file loop of lines 160-230 (modelled
by `runFiles`) is never reached. -/
def mainRun (cluster_ip username password directory project : String)
    (_table : List (String × String)) (projResp : Option JSON)
    (files : List FileInput) : RunTrace :=
  if cluster_ip = "" then ⟨[], [], .crashed (.exception "Cluster IP is required.")⟩
  else if username = "" then ⟨[], [], .crashed (.exception "Username is required.")⟩
  else if password = "" then ⟨[], [], .crashed (.exception "Password is required.")⟩
  else if files.length > 0 then
    if project ≠ "none" then
      match projResp with
      | none => ⟨[], ["projects/list"], .crashed .jsonDecodeError⟩
      | some results =>
        match subscr results "entities" with
        | .error e => ⟨[], ["projects/list"], .crashed e⟩
        | .ok ents =>
          match iterElems ents with
          | .error e => ⟨[], ["projects/list"], .crashed e⟩
          | .ok entityList =>
            match scanProjects project entityList false none with
            | .error e => ⟨[], ["projects/list"], .crashed e⟩
            | .ok (found, _uuid) =>
              if found then
                ⟨["\nProject" ++ project ++ " exists."], ["projects/list"],
                 .crashed (.typeError "unsupported operand types for +: int and str")⟩
              else
                ⟨["\nProject " ++ project ++ " was not found.  Please check the name and retry."],
                 ["projects/list"], .exited⟩
    else
      ⟨[], [], .crashed (.nameError "project_found")⟩
  else
    ⟨["\nNo JSON files found in" ++ directory ++ " ... nothing to import!",
      "\nFinished!\n"], [], .finished⟩

/-! ### Dictionary lemmas -/

theorem objGet_objSet_self (l : List (String × JSON)) (k : String) (v : JSON) :
    objGet (objSet l k v) k = some v := by
  induction l with
  | nil => simp [objGet, objSet]
  | cons p rest ih =>
    obtain ⟨k1, v1⟩ := p
    by_cases h : k1 = k
    · simp [objGet, objSet, h]
    · simp [objGet, objSet, h, ih]

theorem objGet_objSet_ne (l : List (String × JSON)) (k k1 : String) (v : JSON)
    (h : k1 ≠ k) : objGet (objSet l k v) k1 = objGet l k1 := by
  induction l with
  | nil => simp [objGet, objSet, Ne.symm h]
  | cons p rest ih =>
    obtain ⟨k2, v2⟩ := p
    by_cases h2 : k2 = k
    · subst h2
      simp [objGet, objSet, Ne.symm h]
    · simp [objGet, objSet, h2, ih]

theorem objSet_objSet (l : List (String × JSON)) (k : String) (a b : JSON) :
    objSet (objSet l k a) k b = objSet l k b := by
  induction l with
  | nil => simp [objSet]
  | cons p rest ih =>
    obtain ⟨k1, v1⟩ := p
    by_cases h : k1 = k
    · simp [objSet, h]
    · simp [objSet, h, ih]

theorem objSet_of_objGet (l : List (String × JSON)) (k : String) (v : JSON)
    (h : objGet l k = some v) : objSet l k v = l := by
  induction l with
  | nil => simp [objGet] at h
  | cons p rest ih =>
    obtain ⟨k1, v1⟩ := p
    by_cases h1 : k1 = k
    · subst h1
      simp [objGet] at h
      simp [objSet, h]
    · simp [objGet, h1] at h
      simp [objSet, h1, ih h]

theorem objHas_objPop_self (l : List (String × JSON)) (k : String) :
    objHas (objPop l k) k = false := by
  induction l with
  | nil => simp [objHas, objPop]
  | cons p rest ih =>
    obtain ⟨k1, v1⟩ := p
    by_cases h : k1 = k
    · simp [objPop, h, ih]
    · simp [objPop, objHas, h, ih]

theorem objPop_of_not_objHas (l : List (String × JSON)) (k : String)
    (h : objHas l k = false) : objPop l k = l := by
  induction l with
  | nil => simp [objPop]
  | cons p rest ih =>
    obtain ⟨k1, v1⟩ := p
    by_cases h1 : k1 = k
    · simp [objHas, h1] at h
    · simp [objHas, h1] at h
      simp [objPop, h1, ih h]

theorem objHas_objSet_ne (l : List (String × JSON)) (k k1 : String) (v : JSON)
    (h : k1 ≠ k) : objHas (objSet l k v) k1 = objHas l k1 := by
  induction l with
  | nil => simp [objHas, objSet, Ne.symm h]
  | cons p rest ih =>
    obtain ⟨k2, v2⟩ := p
    by_cases h2 : k2 = k
    · subst h2
      simp [objHas, objSet, Ne.symm h]
    · simp [objHas, objSet, h2, ih]

theorem objGet_objPop_ne (l : List (String × JSON)) (k k1 : String)
    (h : k1 ≠ k) : objGet (objPop l k) k1 = objGet l k1 := by
  induction l with
  | nil => simp [objGet, objPop]
  | cons p rest ih =>
    obtain ⟨k2, v2⟩ := p
    by_cases h2 : k2 = k
    · subst h2
      simp [objGet, objPop, Ne.symm h, ih]
    · simp [objGet, objPop, h2, ih]

theorem objHas_objPop_ne (l : List (String × JSON)) (k k1 : String)
    (h : k1 ≠ k) : objHas (objPop l k) k1 = objHas l k1 := by
  induction l with
  | nil => simp [objHas, objPop]
  | cons p rest ih =>
    obtain ⟨k2, v2⟩ := p
    by_cases h2 : k2 = k
    · subst h2
      simp [objHas, objPop, Ne.symm h, ih]
    · simp [objHas, objPop, h2, ih]

/-! ### Characterizations of the Python-subscript helpers -/

theorem subscr_ok_iff {j : JSON} {k : String} {v : JSON} :
    subscr j k = .ok v ↔ ∃ l, j = .obj l ∧ objGet l k = some v := by
  cases j <;> simp [subscr]
  case obj l =>
    cases hg : objGet l k <;> simp [hg]

theorem setItem_ok_iff {j : JSON} {k : String} {v w : JSON} :
    setItem j k v = .ok w ↔ ∃ l, j = .obj l ∧ w = .obj (objSet l k v) := by
  cases j <;> simp [setItem]
  exact eq_comm

/-! ### List-index lemmas for the `service_definition_list[0]` write-back -/

theorem listGet?_lt (l : List JSON) (i : Nat) (a : JSON) (h : l.get? i = some a) :
    i < l.length := by
  induction l generalizing i with
  | nil => simp [List.get?] at h
  | cons x xs ih =>
    cases i with
    | zero => simp
    | succ n =>
      simp only [List.get?] at h
      simpa using ih n h

theorem listGet?_set_self (l : List JSON) (i : Nat) (a b : JSON)
    (h : l.get? i = some b) : (l.set i a).get? i = some a := by
  induction l generalizing i with
  | nil => simp [List.get?] at h
  | cons x xs ih =>
    cases i with
    | zero => simp [List.set]
    | succ n =>
      simp only [List.get?] at h
      simpa [List.set] using ih n h

theorem listSet_of_get? (l : List JSON) (i : Nat) (a : JSON)
    (h : l.get? i = some a) : l.set i a = l := by
  induction l generalizing i with
  | nil => simp [List.set]
  | cons x xs ih =>
    cases i with
    | zero =>
      simp only [List.get?] at h
      injection h with h2
      simp [List.set, h2]
    | succ n =>
      simp only [List.get?] at h
      simp [List.set, ih n h]

/-! ### Lemmas about the export-key stripping (lines 186-194) -/

theorem objHas_stripL_self (l : List (String × JSON)) (k : String) :
    objHas (stripL l k) k = false := by
  unfold stripL
  by_cases h : objHas l k
  · simp [h, objHas_objPop_self]
  · simp only [h, if_false]
    simpa using h

theorem objGet_stripL_ne (l : List (String × JSON)) (k k1 : String) (h : k1 ≠ k) :
    objGet (stripL l k) k1 = objGet l k1 := by
  unfold stripL
  by_cases hh : objHas l k
  · simp [hh, objGet_objPop_ne l k k1 h]
  · simp [hh]

theorem objHas_stripL_ne (l : List (String × JSON)) (k k1 : String) (h : k1 ≠ k) :
    objHas (stripL l k) k1 = objHas l k1 := by
  unfold stripL
  by_cases hh : objHas l k
  · simp [hh, objHas_objPop_ne l k k1 h]
  · simp [hh]

theorem stripKey_obj (k : String) (l : List (String × JSON)) :
    stripKey k (.obj l) = .ok (.obj (stripL l k)) := by
  unfold stripKey stripL
  by_cases h : objHas l k <;> simp [memberStr, popItem, h]

theorem stripL_of_not_has (l : List (String × JSON)) (k : String)
    (h : objHas l k = false) : stripL l k = l := by
  unfold stripL
  simp [h]

theorem stripExportKeys_obj (l : List (String × JSON)) :
    stripExportKeys (.obj l) =
      .ok (.obj (stripL (stripL l "status") "product_version")) := by
  simp [stripExportKeys, stripKey_obj]

/-- Shape of a successful strip: an object loses its two export keys, any
other value passes through unchanged (a contained "status" would have made
`pop` raise). -/
theorem stripExportKeys_ok_shape (j j1 : JSON) (h : stripExportKeys j = .ok j1) :
    (∃ l, j = .obj l ∧ j1 = .obj (stripL (stripL l "status") "product_version")) ∨
    (j1 = j ∧ ∀ l, j ≠ .obj l) := by
  cases j with
  | null => simp [stripExportKeys, stripKey, memberStr] at h
  | bool b => simp [stripExportKeys, stripKey, memberStr] at h
  | num n => simp [stripExportKeys, stripKey, memberStr] at h
  | str s =>
    cases hst : strHasSub "status" s with
    | true => simp [stripExportKeys, stripKey, memberStr, popItem, hst] at h
    | false =>
      cases hpv : strHasSub "product_version" s with
      | true => simp [stripExportKeys, stripKey, memberStr, popItem, hst, hpv] at h
      | false =>
        simp [stripExportKeys, stripKey, memberStr, hst, hpv] at h
        exact Or.inr ⟨h.symm, by simp⟩
  | arr l =>
    cases hst : arrHasStr l "status" with
    | true => simp [stripExportKeys, stripKey, memberStr, popItem, hst] at h
    | false =>
      cases hpv : arrHasStr l "product_version" with
      | true => simp [stripExportKeys, stripKey, memberStr, popItem, hst, hpv] at h
      | false =>
        simp [stripExportKeys, stripKey, memberStr, hst, hpv] at h
        exact Or.inr ⟨h.symm, by simp⟩
  | obj l =>
    rw [stripExportKeys_obj] at h
    simp at h
    exact Or.inl ⟨l, rfl, h.symm⟩

theorem stripExportKeys_ok_no_keys (j : JSON) (l1 : List (String × JSON))
    (h : stripExportKeys j = .ok (.obj l1)) :
    objHas l1 "status" = false ∧ objHas l1 "product_version" = false := by
  rcases stripExportKeys_ok_shape j _ h with ⟨l, _, heq⟩ | ⟨heq, hno⟩
  · have hl1 : l1 = stripL (stripL l "status") "product_version" := by
      injection heq with h1
    subst hl1
    refine ⟨?_, objHas_stripL_self _ _⟩
    rw [objHas_stripL_ne _ _ _ (by decide)]
    exact objHas_stripL_self _ _
  · exact absurd heq.symm (hno l1)

theorem stripExportKeys_idem (j j1 : JSON) (h : stripExportKeys j = .ok j1) :
    stripExportKeys j1 = .ok j1 := by
  rcases stripExportKeys_ok_shape j _ h with ⟨l, hj, heq⟩ | ⟨heq, _⟩
  · subst heq
    rw [stripExportKeys_obj]
    have hs : objHas (stripL (stripL l "status") "product_version") "status" = false := by
      rw [objHas_stripL_ne _ _ _ (by decide)]
      exact objHas_stripL_self _ _
    rw [stripL_of_not_has _ _ hs, stripL_of_not_has _ _ (objHas_stripL_self _ _)]
  · subst heq
    exact h

/-! ### Lemmas about the project binding (lines 168-172) -/

theorem projectBind_ok (u : String) (parsed d1 : JSON)
    (h : projectBind u parsed = .ok d1) :
    ∃ pl ml, parsed = .obj pl ∧ objGet pl "metadata" = some (.obj ml) ∧
      d1 = .obj (objSet pl "metadata"
        (.obj (objSet ml "project_reference" (exactProjectRef u)))) := by
  unfold projectBind at h
  split at h
  · simp at h
  next meta hm =>
    split at h
    · simp at h
    next meta1 hset1 =>
      split at h
      · simp at h
      next meta2 hset2 =>
        obtain ⟨pl, hp, hg⟩ := subscr_ok_iff.mp hm
        subst hp
        obtain ⟨ml0, hmo, hm1⟩ := setItem_ok_iff.mp hset1
        subst hmo
        subst hm1
        obtain ⟨ml1, hm2, hm3⟩ := setItem_ok_iff.mp hset2
        injection hm2 with hml1
        subst hm3
        obtain ⟨pl2, hp2, hd⟩ := setItem_ok_iff.mp h
        injection hp2 with hpl2
        subst hd
        refine ⟨pl, ml0, rfl, hg, ?_⟩
        rw [← hpl2, ← hml1, objSet_objSet]

/-! ### Lemmas about variable injection (lines 174-181) -/

theorem injectVars_cons_eq (t : List (String × String)) (el : List (String × JSON))
    (s v : String) (rest : List JSON)
    (hgn : objGet el "name" = some (.str s)) (htbl : tblGet t (pyLower s) = some v) :
    injectVars t (.obj el :: rest) =
      match injectVars t rest with
      | .error e => .error e
      | .ok rest1 =>
          if v ≠ "none" then .ok (.obj (objSet el "value" (.str v)) :: rest1)
          else .ok (.obj el :: rest1) := by
  simp only [injectVars, subscr, hgn, htbl]
  by_cases hv : v = "none"
  · simp only [hv, ne_eq, not_true_eq_false, if_false]
  · simp only [ne_eq, hv, not_false_eq_true, if_true, setItem]

theorem injectVars_idem (t : List (String × String)) (es es1 : List JSON)
    (h : injectVars t es = .ok es1) : injectVars t es1 = .ok es1 := by
  induction es generalizing es1 with
  | nil =>
    simp only [injectVars] at h
    injection h with h1
    subst h1
    rfl
  | cons entry rest ih =>
    unfold injectVars at h
    split at h
    · simp at h
    next nameVal hn =>
      split at h
      next s =>
        split at h
        · simp at h
        next v htbl =>
          obtain ⟨el, he, hgn⟩ := subscr_ok_iff.mp hn
          subst he
          split at h
          next hv =>
            split at h
            · simp at h
            next entry1 hset =>
              split at h
              · simp at h
              next rest1 hrest =>
                injection h with h1
                subst h1
                obtain ⟨el2, he2, hent1⟩ := setItem_ok_iff.mp hset
                injection he2 with hel2
                subst hel2
                subst hent1
                rw [injectVars_cons_eq t _ s v rest1
                  (by rw [objGet_objSet_ne _ _ _ _ (by decide)]; exact hgn) htbl]
                rw [ih _ hrest]
                simp [hv, objSet_objSet]
          next hv =>
            split at h
            · simp at h
            next rest1 hrest =>
              injection h with h1
              subst h1
              rw [injectVars_cons_eq t el s v rest1 hgn htbl]
              rw [ih _ hrest]
              simp [hv]
      · simp at h

theorem subscr_obj_ok {l : List (String × JSON)} {k : String} {v : JSON}
    (h : subscr (.obj l) k = .ok v) : objGet l k = some v := by
  obtain ⟨l2, he, hg⟩ := subscr_ok_iff.mp h
  injection he with he2
  subst he2
  exact hg

theorem setItem_obj_ok {l : List (String × JSON)} {k : String} {v w : JSON}
    (h : setItem (.obj l) k v = .ok w) : w = .obj (objSet l k v) := by
  simp only [setItem] at h
  injection h with h1
  exact h1.symm

/-! ### Characterization of a successful variable-injection pass
(lines 174-181 as a whole) -/

theorem maybeInject_ok_cases (t : List (String × String)) (d d2 : JSON)
    (h : maybeInject t d = .ok d2) :
    ∃ dl ml nv, d = .obj dl ∧ objGet dl "metadata" = some (.obj ml) ∧
      objGet ml "name" = some nv ∧
      ((memberStr "EraServerDeployment" nv = .ok false ∧ d2 = d) ∨
       (memberStr "EraServerDeployment" nv = .ok true ∧
        ∃ sl rl sdlL sd0l vlv,
          objGet dl "spec" = some (.obj sl) ∧
          objGet sl "resources" = some (.obj rl) ∧
          objGet rl "service_definition_list" = some (.arr sdlL) ∧
          sdlL.get? 0 = some (.obj sd0l) ∧
          objGet sd0l "variable_list" = some vlv ∧
          (((vlv = .obj [] ∨ vlv = .str "") ∧ d2 = d) ∨
           (∃ vl vl1, vlv = .arr vl ∧ injectVars t vl = .ok vl1 ∧
             d2 = .obj (objSet dl "spec" (.obj (objSet sl "resources"
               (.obj (objSet rl "service_definition_list"
                 (.arr (sdlL.set 0 (.obj (objSet sd0l "variable_list"
                   (.arr vl1)))))))))))))) := by
  unfold maybeInject at h
  split at h
  · simp at h
  next meta hm =>
    split at h
    · simp at h
    next nameVal hname =>
      split at h
      · simp at h
      next b hmem =>
        obtain ⟨dl, hd, hgm⟩ := subscr_ok_iff.mp hm
        subst hd
        obtain ⟨ml, hmo, hgn⟩ := subscr_ok_iff.mp hname
        subst hmo
        refine ⟨dl, ml, nameVal, rfl, hgm, hgn, ?_⟩
        split at h
        next hb =>
          -- the substring test succeeded: walk the variable-list path
          split at h
          · simp at h
          next spec hsp =>
            split at h
            · simp at h
            next res hres =>
              split at h
              · simp at h
              next sdl hsdl =>
                split at h
                · simp at h
                next sd0 hsd0 =>
                  split at h
                  · simp at h
                  next varList hvl =>
                    split at h
                    · simp at h
                    next entries hiter =>
                      split at h
                      · simp at h
                      next entries1 hinj =>
                        refine Or.inr ⟨by rw [hmem, hb], ?_⟩
                        have hgsp := subscr_obj_ok hsp
                        obtain ⟨sl, hso, hgres⟩ := subscr_ok_iff.mp hres
                        subst hso
                        obtain ⟨rl, hro, hgsdl⟩ := subscr_ok_iff.mp hsdl
                        subst hro
                        obtain ⟨sd0l, hs0o, hgvl⟩ := subscr_ok_iff.mp hvl
                        -- the list index: sdl must be a JSON array
                        cases sdl with
                        | arr sdlL =>
                          have hget0 : sdlL.get? 0 = some sd0 := by
                            simp only [subscrIdx] at hsd0
                            cases hg0 : sdlL.get? 0 with
                            | none => rw [hg0] at hsd0; simp at hsd0
                            | some x =>
                              rw [hg0] at hsd0
                              injection hsd0 with h2
                              rw [h2]
                          subst hs0o
                          refine ⟨sl, rl, sdlL, sd0l, varList,
                            hgsp, hgres, hgsdl, hget0, hgvl, ?_⟩
                          -- now the final match on the variable-list value
                          split at h
                          next vl =>
                            -- varList = .arr vl: the write-back chain
                            split at h
                            · simp at h
                            next sd1 hset1 =>
                              split at h
                              · simp at h
                              next sdl1 hset2 =>
                                split at h
                                · simp at h
                                next res1 hset3 =>
                                  split at h
                                  · simp at h
                                  next spec1 hset4 =>
                                    have hiter2 : entries = vl := by
                                      simp only [iterElems] at hiter
                                      injection hiter with h2
                                      exact h2.symm
                                    subst hiter2
                                    refine Or.inr ⟨entries, entries1, rfl, hinj, ?_⟩
                                    have e1 := setItem_obj_ok hset1
                                    subst e1
                                    have h0lt : 0 < sdlL.length := listGet?_lt _ _ _ hget0
                                    have e2 : sdl1 = .arr (sdlL.set 0
                                        (.obj (objSet sd0l "variable_list" (.arr entries1)))) := by
                                      simp only [setIdx, h0lt, if_true] at hset2
                                      injection hset2 with h2
                                      exact h2.symm
                                    subst e2
                                    have e3 := setItem_obj_ok hset3
                                    subst e3
                                    have e4 := setItem_obj_ok hset4
                                    subst e4
                                    have e5 := setItem_obj_ok h
                                    rw [e5]
                          next hnotarr =>
                            -- varList is not an array: the loop ran over nothing
                            injection h with h2
                            subst h2
                            refine Or.inl ⟨?_, rfl⟩
                            cases varList with
                            | obj vlobj =>
                              cases vlobj with
                              | nil => exact Or.inl rfl
                              | cons p ps =>
                                simp only [iterElems] at hiter
                                injection hiter with h3
                                rw [← h3] at hinj
                                simp [injectVars, subscr] at hinj
                            | str s =>
                              cases hcl : s.toList with
                              | nil =>
                                refine Or.inr ?_
                                have : s.data = [] := hcl
                                cases s
                                simp_all
                              | cons c cs =>
                                simp only [iterElems, hcl] at hiter
                                injection hiter with h3
                                rw [← h3] at hinj
                                simp [injectVars, subscr] at hinj
                            | arr vl => exact absurd rfl (hnotarr vl)
                            | null => simp [iterElems] at hiter
                            | bool bb => simp [iterElems] at hiter
                            | num n => simp [iterElems] at hiter
                        | str s =>
                          -- indexing a string yields a one-character string,
                          -- which has no "variable_list" item
                          simp only [subscrIdx] at hsd0
                          cases hg0 : s.toList.get? 0 with
                          | none => rw [hg0] at hsd0; simp at hsd0
                          | some c =>
                            rw [hg0] at hsd0
                            injection hsd0 with h2
                            rw [← h2] at hs0o
                            simp at hs0o
                        | obj ol => simp [subscrIdx] at hsd0
                        | null => simp [subscrIdx] at hsd0
                        | bool bb => simp [subscrIdx] at hsd0
                        | num n => simp [subscrIdx] at hsd0
        next hb =>
          -- the substring test failed: document returned unchanged
          injection h with h2
          subst h2
          have hbf : b = false := by
            cases b
            · rfl
            · exact absurd rfl hb
          subst hbf
          exact Or.inl ⟨hmem, rfl⟩

/-! ### Forward evaluation of the injection pass from known lookups -/

theorem maybeInject_eval_noinject (t : List (String × String))
    (el ml : List (String × JSON)) (nv : JSON)
    (hm : objGet el "metadata" = some (.obj ml)) (hn : objGet ml "name" = some nv)
    (hmem : memberStr "EraServerDeployment" nv = .ok false) :
    maybeInject t (.obj el) = .ok (.obj el) := by
  unfold maybeInject
  simp [subscr, hm, hn, hmem]

theorem maybeInject_eval_emptyvl (t : List (String × String))
    (el ml sl rl sd0l : List (String × JSON)) (nv vlv : JSON) (sdlL : List JSON)
    (hm : objGet el "metadata" = some (.obj ml)) (hn : objGet ml "name" = some nv)
    (hmem : memberStr "EraServerDeployment" nv = .ok true)
    (hsp : objGet el "spec" = some (.obj sl))
    (hres : objGet sl "resources" = some (.obj rl))
    (hsdl : objGet rl "service_definition_list" = some (.arr sdlL))
    (hg0 : sdlL.get? 0 = some (.obj sd0l))
    (hvl : objGet sd0l "variable_list" = some vlv)
    (hempty : vlv = .obj [] ∨ vlv = .str "") :
    maybeInject t (.obj el) = .ok (.obj el) := by
  have hg0' : sdlL[0]? = some (.obj sd0l) := by
    rw [← List.get?_eq_getElem?]
    exact hg0
  unfold maybeInject
  rcases hempty with he | he <;> subst he <;>
    simp [subscr, subscrIdx, iterElems, injectVars, hm, hn, hmem, hsp, hres, hsdl, hg0', hvl]

theorem maybeInject_eval_inject (t : List (String × String))
    (el ml sl rl sd0l : List (String × JSON)) (nv : JSON)
    (sdlL vl vl1 : List JSON)
    (hm : objGet el "metadata" = some (.obj ml)) (hn : objGet ml "name" = some nv)
    (hmem : memberStr "EraServerDeployment" nv = .ok true)
    (hsp : objGet el "spec" = some (.obj sl))
    (hres : objGet sl "resources" = some (.obj rl))
    (hsdl : objGet rl "service_definition_list" = some (.arr sdlL))
    (hg0 : sdlL.get? 0 = some (.obj sd0l))
    (hvl : objGet sd0l "variable_list" = some (.arr vl))
    (hinj : injectVars t vl = .ok vl1) :
    maybeInject t (.obj el) = .ok (.obj (objSet el "spec" (.obj (objSet sl "resources"
      (.obj (objSet rl "service_definition_list" (.arr (sdlL.set 0
        (.obj (objSet sd0l "variable_list" (.arr vl1))))))))))) := by
  have hg0' : sdlL[0]? = some (.obj sd0l) := by
    rw [← List.get?_eq_getElem?]
    exact hg0
  unfold maybeInject
  simp [subscr, subscrIdx, setItem, setIdx, iterElems, hm, hn, hmem, hsp, hres, hsdl,
    hg0', hvl, hinj, listGet?_lt _ _ _ hg0]

theorem projectBind_eval (u : String) (el ml2 : List (String × JSON))
    (hm : objGet el "metadata" = some (.obj ml2)) :
    projectBind u (.obj el) =
      .ok (.obj (objSet el "metadata"
        (.obj (objSet ml2 "project_reference" (exactProjectRef u))))) := by
  unfold projectBind
  simp [subscr, hm, setItem, objSet_objSet]

/-! ### Computation shapes of the whole per-file transform -/

theorem transformRaw_some_eq (u : String) (t : List (String × String)) (parsed : JSON) :
    transformRaw (some u) t (some parsed) =
      match projectBind u parsed with
      | .error e => .error e
      | .ok d1 =>
        match maybeInject t d1 with
        | .error e => .error e
        | .ok d2 => stripExportKeys d2 := rfl

theorem transformRaw_none_eq (t : List (String × String)) (parsed : JSON) :
    transformRaw none t (some parsed) = stripExportKeys parsed := rfl

/-! ### Concrete sample data for witnesses and counterexamples -/

/-- A minimal exported blueprint document (not variable-aware). -/
def sampleDoc : JSON :=
  .obj [("metadata", .obj [("name", .str "bp1-blueprint")]),
        ("spec", .obj [("name", .str "bp1")]),
        ("status", .obj []),
        ("product_version", .str "3.0.0")]

/-- The transformed form of `sampleDoc` when bound to project uuid-1. -/
def sampleDocBound : List (String × JSON) :=
  [("metadata", .obj [("name", .str "bp1-blueprint"),
     ("project_reference", .obj [("kind", .str "project"), ("uuid", .str "uuid-1")])]),
   ("spec", .obj [("name", .str "bp1")])]

/-- A variable-aware EraServerDeployment blueprint (the worked example of
the specification). -/
def eraDoc : JSON :=
  .obj [("metadata", .obj [("name", .str "EraServerDeployment-v1")]),
        ("spec", .obj [("name", .str "bp1"),
          ("resources", .obj [("service_definition_list",
            .arr [.obj [("variable_list",
              .arr [.obj [("name", .str "PE_VIP"), ("value", .str "old")]])]])])]),
        ("status", .obj [])]

/-- A projects/list response listing one project named "default". -/
def sampleProjectsResp : JSON :=
  .obj [("entities", .arr [.obj [("status", .obj [("name", .str "default")]),
                                 ("metadata", .obj [("uuid", .str "uuid-1")])]])]

/-- An upload response carrying a structured message list. -/
def sampleUploadResp : JSON :=
  .obj [("message_list", .arr [.obj [("message", .str "Import successful")]])]

/-! ### Claim theorems -/

/-- C1: the claim says that with the sentinel project "none" (the default:
`projectOf` of an argument set without `--project` is "none") and at least
one .json file, project resolution is skipped, no project reference is
attached, and the run proceeds to process the files.  The code does skip
the query (the trace records no projects/list call), but it does not
proceed: `project_found` is assigned only inside the `project != 'none'`
branch, so line 148 (`if project_found:`) raises an uncaught
UnboundLocalError before any file is touched.  This theorem evaluates the
run at the failing input: one valid blueprint file, default project. -/
theorem defaultMode_crash_unbound_project_found :
    mainRun "10.0.0.1" "admin" "secret" "."
      (projectOf ⟨"10.0.0.1", some "admin", some "secret", none, none,
        none, none, none, none, none, none, none⟩)
      dictVariablesDefault (some sampleProjectsResp)
      [⟨"./bp1.json", some sampleDoc, some sampleUploadResp⟩] =
    ⟨[], [], .crashed (.nameError "project_found")⟩ := rfl

/-- C2: the claim says that for a non-empty file list with the project
resolved, the orchestrator produces one outcome per file in enumeration
order.  In fact, right after announcing that the project exists, line 157
computes `len(blueprint_list) + ' JSON files found...'`, an int-plus-str
`TypeError` in Python 3, so the run crashes before the loop: the trace
shows the project query, the "exists" line, no upload call, and no per-file
outcome, at the failing input of one valid blueprint file and the resolved
project "default". -/
theorem projectMode_banner_typeError_before_loop :
    mainRun "10.0.0.1" "admin" "secret" "." "default" dictVariablesDefault
      (some sampleProjectsResp)
      [⟨"./bp1.json", some sampleDoc, some sampleUploadResp⟩] =
    ⟨["\nProjectdefault exists."], ["projects/list"],
     .crashed (.typeError "unsupported operand types for +: int and str")⟩ := rfl

/-- C4: the claim says a file that is not valid JSON, or whose document
lacks `spec.name`, is rejected with the "Unprocessable JSON file" report
and never surfaces as an unhandled exception.  In fact the
`except json.decoder.JSONDecodeError` of lines 198-202 is dead code (by
then `raw_json` is the output of `json.dumps`): a file with invalid JSON
raises an uncaught JSONDecodeError at line 187 (line 169 in project mode),
and a document without `spec` raises an uncaught KeyError at line 199.
Both evaluations show the loop crashing with no output line and no upload
call, instead of printing the message. -/
theorem perFile_malformed_uncaught :
    (runFiles .none dictVariablesDefault [⟨"./bad.json", none, none⟩] [] [] =
      ⟨[], [], .crashed .jsonDecodeError⟩) ∧
    (runFiles .none dictVariablesDefault
        [⟨"./noname.json", some (.obj []), none⟩] [] [] =
      ⟨[], [], .crashed (.keyError "spec")⟩) :=
  ⟨rfl, rfl⟩

/-- C5 counterexample: the claim says the project check precedes the
file-count check, so an empty file list with an unknown project name fails
with project-not-found.  At the concrete input (empty candidate list,
project "Ghost" which the listing does not contain) the run instead prints
the "nothing to import" line, never queries projects/list, and finishes
cleanly: line 134 tests `len(blueprint_list) > 0` before the project check
of lines 138-154 is ever reached. -/
theorem emptyDir_project_check_skipped_cex :
    mainRun "10.0.0.1" "admin" "secret" "./bps" "Ghost" dictVariablesDefault
      (some sampleProjectsResp) [] =
    ⟨["\nNo JSON files found in" ++ "./bps" ++ " ... nothing to import!",
      "\nFinished!\n"], [], .finished⟩ := rfl

/-- C5 amended: the file-count check comes first.  For every run with
non-empty credentials and an empty candidate file list — whatever the
requested project and whatever the control plane would answer — the run
emits exactly the "nothing to import" outcome plus the final banner,
issues no query at all, and finishes cleanly; a project-not-found failure
can therefore only occur when at least one file is present. -/
theorem emptyDir_nothing_to_import (ip u p dir project : String)
    (table : List (String × String)) (projResp : Option JSON)
    (hip : ip ≠ "") (hu : u ≠ "") (hp : p ≠ "") :
    mainRun ip u p dir project table projResp [] =
      ⟨["\nNo JSON files found in" ++ dir ++ " ... nothing to import!",
        "\nFinished!\n"], [], .finished⟩ := by
  simp [mainRun, hip, hu, hp]

/-- Witness for the C5 amended theorem at a concrete input. -/
theorem emptyDir_nothing_to_import_witness :
    mainRun "10.0.0.1" "admin" "secret" "./bps" "Ghost" dictVariablesDefault none [] =
      ⟨["\nNo JSON files found in" ++ "./bps" ++ " ... nothing to import!",
        "\nFinished!\n"], [], .finished⟩ :=
  emptyDir_nothing_to_import "10.0.0.1" "admin" "secret" "./bps" "Ghost"
    dictVariablesDefault none (by decide) (by decide) (by decide)

/-- C3 counterexample: the claim says an entry whose name is absent from
the substitution table is left untouched and no error is raised.  At the
concrete input — one variable entry named "OTHER", the default table —
line 180 evaluates `dict_variables["other"]` and raises a KeyError instead
of skipping the entry. -/
theorem injectVars_absent_name_keyError :
    injectVars dictVariablesDefault
      [.obj [("name", .str "OTHER"), ("value", .str "x")]] =
    .error (.keyError "other") := rfl

/-- C3 amended: during variable injection, for every entry whose
lower-cased name IS present in the substitution table, the entry's "value"
field is overwritten when the table value is not the sentinel "none" and
the entry is left untouched when it is; an entry whose name is absent from
the table instead aborts the pass with a KeyError (so "no error for absent
names" does not hold; the rest of the claim does). -/
theorem injectVars_present_names_spec (table : List (String × String))
    (entries : List JSON)
    (h : entries.all (entryNameInTable table) = true) :
    ∃ out, injectVars table entries = .ok out ∧
      List.Forall₂ (fun e e1 => ∃ l s v, e = .obj l ∧
        objGet l "name" = some (.str s) ∧ tblGet table (pyLower s) = some v ∧
        ((v ≠ "none" ∧ e1 = .obj (objSet l "value" (.str v))) ∨
         (v = "none" ∧ e1 = e))) entries out := by
  induction entries with
  | nil => exact ⟨[], rfl, List.Forall₂.nil⟩
  | cons e rest ih =>
    simp only [List.all_cons, Bool.and_eq_true] at h
    obtain ⟨he, hrest⟩ := h
    obtain ⟨out, hout, hrel⟩ := ih hrest
    unfold entryNameInTable at he
    split at he
    next l =>
      split at he
      next s hgn =>
        obtain ⟨v, htbl⟩ := Option.isSome_iff_exists.mp he
        rw [injectVars_cons_eq table l s v rest hgn htbl, hout]
        by_cases hv : v = "none"
        · subst hv
          exact ⟨.obj l :: out, by simp,
            List.Forall₂.cons ⟨l, s, "none", rfl, hgn, htbl, Or.inr ⟨rfl, rfl⟩⟩ hrel⟩
        · exact ⟨.obj (objSet l "value" (.str v)) :: out, by simp [hv],
            List.Forall₂.cons ⟨l, s, v, rfl, hgn, htbl, Or.inl ⟨hv, rfl⟩⟩ hrel⟩
      · simp at he
    · simp at he

/-- Witness for the C3 amended theorem: a two-entry list, one name bound to
a real value (overwritten) and one to the sentinel (untouched). -/
theorem injectVars_present_names_spec_witness :
    ([JSON.obj [("name", .str "PE_VIP"), ("value", .str "old")],
      JSON.obj [("name", .str "CTR_UUID"), ("value", .str "keep")]].all
        (entryNameInTable [("pe_vip", "10.0.0.5"), ("ctr_uuid", "none")]) = true) ∧
    (∃ out, injectVars [("pe_vip", "10.0.0.5"), ("ctr_uuid", "none")]
        [JSON.obj [("name", .str "PE_VIP"), ("value", .str "old")],
         JSON.obj [("name", .str "CTR_UUID"), ("value", .str "keep")]] = .ok out ∧
      List.Forall₂ (fun e e1 => ∃ l s v, e = .obj l ∧
        objGet l "name" = some (.str s) ∧
        tblGet [("pe_vip", "10.0.0.5"), ("ctr_uuid", "none")] (pyLower s) = some v ∧
        ((v ≠ "none" ∧ e1 = .obj (objSet l "value" (.str v))) ∨
         (v = "none" ∧ e1 = e)))
        [JSON.obj [("name", .str "PE_VIP"), ("value", .str "old")],
         JSON.obj [("name", .str "CTR_UUID"), ("value", .str "keep")]] out) :=
  ⟨rfl, injectVars_present_names_spec [("pe_vip", "10.0.0.5"), ("ctr_uuid", "none")] _ rfl⟩

/-- C9: the linear scan of lines 142-145 does not stop at the first match:
appending one more entity whose `status.name` equals the requested project
makes that entity's `metadata.uuid` the captured uuid, whatever the scan of
the earlier entities produced (as long as it did not raise), because each
match overwrites `project_found` and `project_uuid`. -/
theorem scanProjects_last_match_wins (project : String) (es : List JSON)
    (f0 : Bool) (u0 : Option JSON) (r : Bool × Option JSON)
    (ent st md uu : JSON)
    (hscan : scanProjects project es f0 u0 = .ok r)
    (hst : subscr ent "status" = .ok st)
    (hnm : subscr st "name" = .ok (.str project))
    (hmd : subscr ent "metadata" = .ok md)
    (huu : subscr md "uuid" = .ok uu) :
    scanProjects project (es ++ [ent]) f0 u0 = .ok (true, some uu) := by
  induction es generalizing f0 u0 with
  | nil =>
    simp [scanProjects, hst, hnm, hmd, huu, pyEqStr]
  | cons e rest ih =>
    unfold scanProjects at hscan
    split at hscan
    · simp at hscan
    next st2 hst2 =>
      split at hscan
      · simp at hscan
      next nm2 hnm2 =>
        split at hscan
        next hcond =>
          split at hscan
          · simp at hscan
          next md2 hmd2 =>
            split at hscan
            · simp at hscan
            next uu2 huu2 =>
              simp only [List.cons_append]
              unfold scanProjects
              simp only [hst2, hnm2, hcond, if_true, hmd2, huu2]
              exact ih _ _ hscan
        next hcond =>
          simp only [List.cons_append]
          unfold scanProjects
          simp only [hst2, hnm2]
          rw [if_neg hcond]
          exact ih _ _ hscan

/-- Witness for C9: two projects both named "Prod"; the scan yields the
uuid of the second (last) one. -/
theorem scanProjects_last_match_wins_witness :
    scanProjects "Prod"
      [.obj [("status", .obj [("name", .str "Prod")]),
             ("metadata", .obj [("uuid", .str "u1")])],
       .obj [("status", .obj [("name", .str "Prod")]),
             ("metadata", .obj [("uuid", .str "u2")])]]
      false none = .ok (true, some (.str "u2")) :=
  scanProjects_last_match_wins "Prod"
    [.obj [("status", .obj [("name", .str "Prod")]),
           ("metadata", .obj [("uuid", .str "u1")])]]
    false none (true, some (.str "u1"))
    (.obj [("status", .obj [("name", .str "Prod")]),
           ("metadata", .obj [("uuid", .str "u2")])])
    (.obj [("name", .str "Prod")]) (.obj [("uuid", .str "u2")]) (.str "u2")
    rfl rfl rfl rfl rfl

/-- C10: the sentinel and an explicit value "none" are indistinguishable.
First, `get_options` builds the same `dict_variables` whether `--pe_vip` was
omitted or explicitly given as the string "none".  Second, injection never
writes to an entry whose table value is "none": whenever the pass succeeds,
every entry whose lower-cased name maps to "none" in the table reappears
unchanged at its position, so the value "none" can never be injected. -/
theorem sentinel_value_never_injected :
    (∀ ip u p dir pr cu cn cln ei nn nv,
      buildDictVariables ⟨ip, u, p, dir, pr, some "none", cu, cn, cln, ei, nn, nv⟩ =
      buildDictVariables ⟨ip, u, p, dir, pr, none, cu, cn, cln, ei, nn, nv⟩) ∧
    (∀ (table : List (String × String)) (entries out : List JSON) (i : Nat) (e : JSON),
      injectVars table entries = .ok out → entries.get? i = some e →
      entryTableValue table e = some "none" → out.get? i = some e) := by
  constructor
  · intro ip u p dir pr cu cn cln ei nn nv
    rfl
  · intro table entries
    induction entries with
    | nil =>
      intro out i e _ hget
      simp [List.get?] at hget
    | cons e0 rest ih =>
      intro out i e h hget hval
      unfold injectVars at h
      split at h
      · simp at h
      next nameVal hn =>
        split at h
        next s =>
          split at h
          · simp at h
          next v htbl =>
            obtain ⟨l, he0, hgn⟩ := subscr_ok_iff.mp hn
            subst he0
            split at h
            next hv =>
              split at h
              · simp at h
              next entry1 hset =>
                split at h
                · simp at h
                next rest1 hrest =>
                  injection h with h1
                  subst h1
                  cases i with
                  | zero =>
                    simp only [List.get?] at hget
                    injection hget with h2
                    subst h2
                    rw [entryTableValue] at hval
                    simp only [hgn] at hval
                    rw [htbl] at hval
                    injection hval with h3
                    exact absurd h3 hv
                  | succ n =>
                    simp only [List.get?] at hget ⊢
                    exact ih rest1 n e hrest hget hval
            next hv =>
              split at h
              · simp at h
              next rest1 hrest =>
                injection h with h1
                subst h1
                cases i with
                | zero =>
                  simp only [List.get?] at hget ⊢
                  exact hget
                | succ n =>
                  simp only [List.get?] at hget ⊢
                  exact ih rest1 n e hrest hget hval
        · simp at h

/-- Witness for C10: with the default table (all sentinel values) the
single PE_VIP entry passes through injection unchanged. -/
theorem sentinel_value_never_injected_witness :
    injectVars dictVariablesDefault
      [.obj [("name", .str "PE_VIP"), ("value", .str "old")]] =
      .ok [.obj [("name", .str "PE_VIP"), ("value", .str "old")]] ∧
    [JSON.obj [("name", .str "PE_VIP"), ("value", .str "old")]].get? 0 =
      some (.obj [("name", .str "PE_VIP"), ("value", .str "old")]) :=
  ⟨rfl, sentinel_value_never_injected.2 dictVariablesDefault
    [.obj [("name", .str "PE_VIP"), ("value", .str "old")]]
    [.obj [("name", .str "PE_VIP"), ("value", .str "old")]] 0
    (.obj [("name", .str "PE_VIP"), ("value", .str "old")]) rfl rfl rfl⟩

/-- C6: whenever the per-file transform succeeds and yields an object —
whether or not a project was requested (`proj` ranges over both modes) —
the resulting document contains neither the top-level "status" key nor the
top-level "product_version" key: lines 186-194 run on every path through
the loop body and pop both keys. -/
theorem transform_strips_export_keys (proj : Option String)
    (table : List (String × String)) (raw : Option JSON)
    (l1 : List (String × JSON))
    (h : transformRaw proj table raw = .ok (.obj l1)) :
    objHas l1 "status" = false ∧ objHas l1 "product_version" = false := by
  cases proj with
  | none =>
    cases raw with
    | none => simp [transformRaw] at h
    | some parsed =>
      rw [transformRaw_none_eq] at h
      exact stripExportKeys_ok_no_keys parsed l1 h
  | some u =>
    cases raw with
    | none => simp [transformRaw] at h
    | some parsed =>
      rw [transformRaw_some_eq] at h
      split at h
      · simp at h
      next d1 hb =>
        split at h
        · simp at h
        next d2 hi => exact stripExportKeys_ok_no_keys d2 l1 h

/-- Witness for C6: the sample document carries both export keys; its
transform in project mode drops them. -/
theorem transform_strips_export_keys_witness :
    transformRaw (some "uuid-1") dictVariablesDefault (some sampleDoc) =
      .ok (.obj sampleDocBound) ∧
    (objHas sampleDocBound "status" = false ∧
     objHas sampleDocBound "product_version" = false) :=
  ⟨rfl, transform_strips_export_keys (some "uuid-1") dictVariablesDefault
    (some sampleDoc) sampleDocBound rfl⟩

/-- C7: whenever the per-file transform runs with a resolved project uuid
and succeeds, the result is an object whose `metadata.project_reference`
equals exactly the two-field object with kind "project" and that uuid —
line 170 first overwrites `metadata["project_reference"]` with a fresh
dict, so any pre-existing reference is fully replaced, never merged. -/
theorem transform_sets_project_reference (u : String)
    (table : List (String × String)) (raw : Option JSON) (dres : JSON)
    (h : transformRaw (some u) table raw = .ok dres) :
    ∃ l1 ml, dres = .obj l1 ∧ objGet l1 "metadata" = some (.obj ml) ∧
      objGet ml "project_reference" =
        some (.obj [("kind", .str "project"), ("uuid", .str u)]) := by
  cases raw with
  | none => simp [transformRaw] at h
  | some parsed =>
    rw [transformRaw_some_eq] at h
    split at h
    · simp at h
    next d1 hb =>
      split at h
      · simp at h
      next d2 hi =>
        obtain ⟨pl, ml0, hp, hgm, hd1⟩ := projectBind_ok u parsed d1 hb
        subst hd1
        obtain ⟨dl, ml, nv, hdo, hgmd, hgn, hcases⟩ :=
          maybeInject_ok_cases table _ d2 hi
        injection hdo with hdl
        subst hdl
        -- d2 is an object whose "metadata" entry is the bound metadata
        have hself : objGet (objSet pl "metadata"
            (.obj (objSet ml0 "project_reference" (exactProjectRef u)))) "metadata" =
            some (.obj (objSet ml0 "project_reference" (exactProjectRef u))) :=
          objGet_objSet_self _ _ _
        have hd2 : ∃ d2l, d2 = .obj d2l ∧ objGet d2l "metadata" =
            some (.obj (objSet ml0 "project_reference" (exactProjectRef u))) := by
          rcases hcases with ⟨_, hd2d⟩ | ⟨_, sl, rl, sdlL, sd0l, vlv,
              hgsp, hgres, hgsdl, hget0, hgvl, hsub⟩
          · exact ⟨_, hd2d, hself⟩
          · rcases hsub with ⟨_, hd2d⟩ | ⟨vl, vl1, hvlv, hinj, hd2d⟩
            · exact ⟨_, hd2d, hself⟩
            · refine ⟨_, hd2d, ?_⟩
              rw [objGet_objSet_ne _ _ _ _ (by decide)]
              exact hself
        obtain ⟨d2l, hd2o, hmd2⟩ := hd2
        subst hd2o
        rcases stripExportKeys_ok_shape _ _ h with ⟨l2, hl2, hdres⟩ | ⟨_, hno⟩
        · injection hl2 with hl2e
          subst hl2e
          refine ⟨_, objSet ml0 "project_reference" (exactProjectRef u), hdres, ?_, ?_⟩
          · rw [objGet_stripL_ne _ _ _ (by decide), objGet_stripL_ne _ _ _ (by decide)]
            exact hmd2
          · rw [objGet_objSet_self]
            rfl
        · exact absurd rfl (hno d2l)

/-- Witness for C7: the sample document, which carries no prior project
reference, receives exactly the kind/uuid pair. -/
theorem transform_sets_project_reference_witness :
    transformRaw (some "uuid-1") dictVariablesDefault (some sampleDoc) =
      .ok (.obj sampleDocBound) ∧
    (∃ l1 ml, JSON.obj sampleDocBound = .obj l1 ∧
      objGet l1 "metadata" = some (.obj ml) ∧
      objGet ml "project_reference" =
        some (.obj [("kind", .str "project"), ("uuid", .str "uuid-1")])) :=
  ⟨rfl, transform_sets_project_reference "uuid-1" dictVariablesDefault
    (some sampleDoc) (.obj sampleDocBound) rfl⟩

/-- C8: the per-file transform is idempotent.  Whenever it succeeds (same
resolved project uuid, same substitution table), feeding its output back in
succeeds and returns the output unchanged: re-binding writes the same
project reference over itself, re-injection writes the same variable
values over themselves, and the export keys are already gone. -/
theorem transform_idempotent (proj : Option String)
    (table : List (String × String)) (raw : Option JSON) (dres : JSON)
    (h : transformRaw proj table raw = .ok dres) :
    transformRaw proj table (some dres) = .ok dres := by
  cases proj with
  | none =>
    cases raw with
    | none => simp [transformRaw] at h
    | some parsed =>
      rw [transformRaw_none_eq] at h
      rw [transformRaw_none_eq]
      exact stripExportKeys_idem parsed dres h
  | some u =>
    cases raw with
    | none => simp [transformRaw] at h
    | some parsed =>
      rw [transformRaw_some_eq] at h
      split at h
      · simp at h
      next d1 hb =>
        split at h
        · simp at h
        next d2 hi =>
          obtain ⟨pl, ml0, hp, hgm, hd1⟩ := projectBind_ok u parsed d1 hb
          subst hd1
          obtain ⟨dl, ml, nv, hdo, hgmd, hgn, hcases⟩ :=
            maybeInject_ok_cases table _ d2 hi
          injection hdo with hdl
          subst hdl
          have hml : objSet ml0 "project_reference" (exactProjectRef u) = ml := by
            have h1 := hgmd
            rw [objGet_objSet_self] at h1
            injection h1 with h2
            injection h2 with h3
          subst hml
          -- in every branch, d2 is an object; name its field list and
          -- establish the metadata and spec lookups on it
          have hd2 : ∃ d2l, d2 = .obj d2l ∧
              objGet d2l "metadata" =
                some (.obj (objSet ml0 "project_reference" (exactProjectRef u))) := by
            rcases hcases with ⟨_, hd2d⟩ | ⟨_, sl, rl, sdlL, sd0l, vlv,
                hgsp, hgres, hgsdl, hget0, hgvl, hsub⟩
            · exact ⟨_, hd2d, objGet_objSet_self _ _ _⟩
            · rcases hsub with ⟨_, hd2d⟩ | ⟨vl, vl1, hvlv, hinjv, hd2d⟩
              · exact ⟨_, hd2d, objGet_objSet_self _ _ _⟩
              · refine ⟨_, hd2d, ?_⟩
                rw [objGet_objSet_ne _ _ _ _ (by decide)]
                exact objGet_objSet_self _ _ _
          obtain ⟨d2l, hd2o, hm2⟩ := hd2
          rcases stripExportKeys_ok_shape _ _ h with ⟨l2, hl2, hdres⟩ | ⟨_, hno⟩
          on_goal 2 =>
            rw [hd2o] at hno
            exact absurd rfl (hno d2l)
          rw [hd2o] at hl2
          injection hl2 with hl2e
          subst hl2e
          subst hdres
          -- lookups survive the stripping of the two export keys
          have hmdr : objGet (stripL (stripL d2l "status") "product_version")
              "metadata" =
              some (.obj (objSet ml0 "project_reference" (exactProjectRef u))) := by
            rw [objGet_stripL_ne _ _ _ (by decide),
              objGet_stripL_ne _ _ _ (by decide)]
            exact hm2
          have hspr : objGet (stripL (stripL d2l "status") "product_version")
              "spec" = objGet d2l "spec" := by
            rw [objGet_stripL_ne _ _ _ (by decide),
              objGet_stripL_ne _ _ _ (by decide)]
          -- second run of the project binding is the identity
          have hbind2 := projectBind_eval u
            (stripL (stripL d2l "status") "product_version") _ hmdr
          rw [objSet_objSet, objSet_of_objGet _ _ _ hmdr] at hbind2
          -- second run of the variable injection is the identity
          have hinj2 : maybeInject table
              (.obj (stripL (stripL d2l "status") "product_version")) =
              .ok (.obj (stripL (stripL d2l "status") "product_version")) := by
            rcases hcases with ⟨hmem, hd2d⟩ | ⟨hmem, sl, rl, sdlL, sd0l, vlv,
                hgsp, hgres, hgsdl, hget0, hgvl, hsub⟩
            · exact maybeInject_eval_noinject table _ _ nv hmdr hgn hmem
            · rcases hsub with ⟨hemp, hd2d⟩ | ⟨vl, vl1, hvlv, hinjv, hd2d⟩
              · -- the variable list was an empty dict or empty string
                have hspx : objGet (stripL (stripL d2l "status")
                    "product_version") "spec" = some (.obj sl) := by
                  rw [hspr]
                  rw [hd2d] at hd2o
                  injection hd2o with h4
                  rw [← h4]
                  exact hgsp
                exact maybeInject_eval_emptyvl table _ _ sl rl sd0l nv vlv sdlL
                  hmdr hgn hmem hspx hgres hgsdl hget0 hgvl hemp
              · -- the variable list was a real array: re-inject and collapse
                subst hvlv
                rw [hd2d] at hd2o
                injection hd2o with h4
                have hspx : objGet (stripL (stripL d2l "status")
                    "product_version") "spec" =
                    some (.obj (objSet sl "resources" (.obj (objSet rl
                      "service_definition_list" (.arr (sdlL.set 0
                        (.obj (objSet sd0l "variable_list" (.arr vl1))))))))) := by
                  rw [hspr, ← h4]
                  exact objGet_objSet_self _ _ _
                have hev := maybeInject_eval_inject table
                  (stripL (stripL d2l "status") "product_version") _
                  (objSet sl "resources" (.obj (objSet rl
                    "service_definition_list" (.arr (sdlL.set 0
                      (.obj (objSet sd0l "variable_list" (.arr vl1))))))))
                  (objSet rl "service_definition_list" (.arr (sdlL.set 0
                    (.obj (objSet sd0l "variable_list" (.arr vl1))))))
                  (objSet sd0l "variable_list" (.arr vl1)) nv
                  (sdlL.set 0 (.obj (objSet sd0l "variable_list" (.arr vl1))))
                  vl1 vl1 hmdr hgn hmem hspx
                  (objGet_objSet_self _ _ _) (objGet_objSet_self _ _ _)
                  (listGet?_set_self _ 0 _ _ hget0) (objGet_objSet_self _ _ _)
                  (injectVars_idem table vl vl1 hinjv)
                rw [objSet_objSet, List.set_set, objSet_objSet, objSet_objSet,
                  objSet_of_objGet _ _ _ hspx] at hev
                exact hev
          -- the export keys are already gone, so the final strip is the identity
          have hstrip2 := stripExportKeys_idem _ _ h
          rw [transformRaw_some_eq]
          simp only [hbind2, hinj2]
          exact hstrip2

/-- The substitution table of a run that supplied only `--pe_vip`. -/
def eraTable : List (String × String) :=
  [("pe_vip", "10.0.0.5"), ("ctr_uuid", "none"), ("clstr_name", "none"),
   ("ctr_name", "none"), ("era_id", "none"), ("network_name", "none"),
   ("network_vlan", "none")]

/-- The transform of `eraDoc` under `eraTable` and project uuid-1: bound,
injected, and stripped. -/
def eraDocBound : JSON :=
  .obj [("metadata", .obj [("name", .str "EraServerDeployment-v1"),
          ("project_reference", .obj [("kind", .str "project"),
            ("uuid", .str "uuid-1")])]),
        ("spec", .obj [("name", .str "bp1"),
          ("resources", .obj [("service_definition_list",
            .arr [.obj [("variable_list",
              .arr [.obj [("name", .str "PE_VIP"),
                ("value", .str "10.0.0.5")]])]])])])]

/-- Witness for C8: transforming the worked-example blueprint and then
transforming the result again returns the result unchanged. -/
theorem transform_idempotent_witness :
    transformRaw (some "uuid-1") eraTable (some eraDoc) = .ok eraDocBound ∧
    transformRaw (some "uuid-1") eraTable (some eraDocBound) = .ok eraDocBound :=
  ⟨rfl, transform_idempotent (some "uuid-1") eraTable (some eraDoc) eraDocBound rfl⟩

end ImportBlueprints
